import Mathlib

/-!
Shallow embedding of the json2ciw core: the declarative process-model schema
(schema.py) and the Ciw parameter compiler (engine.py).  Python floats are
modelled as rationals, Python dicts as association lists or lookup functions,
and raised exceptions as `Except String`.
-/

namespace Json2Ciw

/-- Timing distribution: a type tag plus named numeric parameters
(schema.py, class Distribution). -/
structure Distribution where
  type : String
  parameters : List (String × ℚ)
deriving DecidableEq, Repr

/-- Capacity-limited server pool (schema.py, class Resource). -/
structure Resource where
  name : String
  capacity : Int
deriving DecidableEq, Repr

/-- Processing step (schema.py, class Activity). -/
structure Activity where
  name : String
  type : String
  resource : Resource
  service_distribution : Distribution
  arrival_distribution : Option Distribution
deriving DecidableEq, Repr

/-- Probability-weighted edge (schema.py, class Transition); `source` and
`target` are the internal names of the aliased `from` and `to` fields. -/
structure Transition where
  source : String
  target : String
  probability : ℚ
deriving DecidableEq, Repr

/-- The aggregate model (schema.py, class ProcessModel). -/
structure ProcessModel where
  name : String
  description : Option String
  activities : List Activity
  transitions : List Transition
deriving DecidableEq, Repr

/-- Pydantic `Literal` check on `Distribution.type`. -/
def Distribution.typeOk (d : Distribution) : Bool :=
  d.type == "exponential" || d.type == "triangular" || d.type == "uniform" ||
    d.type == "deterministic"

/-- Pydantic field validators reachable from an Activity: capacity `gt=0`
and the distribution type literals. -/
def Activity.fieldValidB (a : Activity) : Bool :=
  decide (0 < a.resource.capacity) && a.service_distribution.typeOk &&
    (match a.arrival_distribution with
     | some d => d.typeOk
     | none => true)

/-- Pydantic field validator of Transition: probability `ge=0.0, le=1.0`. -/
def Transition.fieldValidB (t : Transition) : Bool :=
  decide (0 ≤ t.probability) && decide (t.probability ≤ 1)

/-- All pydantic field validators of the model (these run before the
model_validator). -/
def ProcessModel.fieldValidB (m : ProcessModel) : Bool :=
  m.activities.all Activity.fieldValidB && m.transitions.all Transition.fieldValidB

/-- The set of activity names built at the start of validate_transition_rows. -/
def activityNames (m : ProcessModel) : List String :=
  m.activities.map (fun a => a.name)

/-- The probs_by_source accumulation of validate_transition_rows: the running
sum of probabilities over the transitions whose source is `name` (a
`defaultdict(float)` entry, 0 when the name never occurs as a source). -/
def rowSum (ts : List Transition) (name : String) : ℚ :=
  ((ts.filter (fun t => t.source = name)).map (fun t => t.probability)).sum

/-- The reference-checking loop of validate_transition_rows: raises on the
first transition with an unknown source or an unknown target. -/
def checkRefs (names allowed : List String) : List Transition → Except String Unit
  | [] => Except.ok ()
  | t :: ts =>
    if t.source ∉ names then
      Except.error ("Transition 'from' unknown activity: " ++ t.source)
    else if t.target ∉ allowed then
      Except.error ("Transition 'to' unknown target: " ++ t.target)
    else checkRefs names allowed ts

/-- The tolerance `tol = 1e-9` of validate_transition_rows. -/
def tol : ℚ := 1 / 1000000000

/-- The missing_sources list: activities whose accumulated outgoing sum is
exactly 0.0, in activity order. -/
def missingNames (m : ProcessModel) : List String :=
  (m.activities.filter (fun a => decide (rowSum m.transitions a.name = 0))).map
    (fun a => a.name)

/-- The bad_sums list: activities whose nonzero outgoing sum deviates from 1.0
beyond the tolerance, paired with the actual sum, in activity order. -/
def badSums (m : ProcessModel) : List (String × ℚ) :=
  (m.activities.filter (fun a =>
      decide (rowSum m.transitions a.name ≠ 0 ∧ |rowSum m.transitions a.name - 1| > tol))).map
    (fun a => (a.name, rowSum m.transitions a.name))

/-- Python `", ".join`. -/
def joinComma : List String → String
  | [] => ""
  | [s] => s
  | s :: rest => s ++ ", " ++ joinComma rest

/-- The missing-outgoing-transitions error message. -/
def missingMessage (m : ProcessModel) : String :=
  "Missing outgoing transitions for activities (sum=0.0): " ++ joinComma (missingNames m)

/-- The probabilities-do-not-sum-to-1.0 error message, including each actual
sum. -/
def badMessage (m : ProcessModel) : String :=
  "Outgoing transition probabilities must sum to 1.0 for each activity; problems: " ++
    joinComma ((badSums m).map (fun p => p.1 ++ " (sum=" ++ toString p.2 ++ ")"))

/-- The model_validator validate_transition_rows of schema.py. -/
def validate_transition_rows (m : ProcessModel) : Except String ProcessModel :=
  match checkRefs (activityNames m) (activityNames m ++ ["Exit"]) m.transitions with
  | Except.error e => Except.error e
  | Except.ok _ =>
    if missingNames m ≠ [] then Except.error (missingMessage m)
    else if badSums m ≠ [] then Except.error (badMessage m)
    else Except.ok m

/-- Pydantic construction of a ProcessModel: field validation, then the
model_validator (mode="after"). -/
def ProcessModel.construct (m : ProcessModel) : Except String ProcessModel :=
  if m.fieldValidB then validate_transition_rows m
  else Except.error "pydantic validation error: invalid field value"

/-- Ciw distribution objects as constructed by _make_ciw_dist.  Following the
spec, the argument of the exponential constructor is the mean inter-event
time expected by the engine. -/
inductive CiwDist where
  | exponential (mean : ℚ)
  | triangular (min mode max : ℚ)
  | uniform (min max : ℚ)
  | deterministic (value : ℚ)
deriving DecidableEq, Repr

/-- Python dict access `p[k]`: KeyError when the key is absent. -/
def dictGet (p : List (String × ℚ)) (k : String) : Except String ℚ :=
  match p.lookup k with
  | some v => Except.ok v
  | none => Except.error ("KeyError: " ++ k)

/-- The helper _make_ciw_dist of engine.py; parameter lookups happen in the
Python argument-evaluation order, and the exponential branch divides
`1 / p["rate"]`. -/
def make_ciw_dist (dist_obj : Distribution) : Except String CiwDist :=
  if dist_obj.type = "exponential" then
    match dictGet dist_obj.parameters "rate" with
    | Except.error e => Except.error e
    | Except.ok r =>
      if r = 0 then Except.error "ZeroDivisionError: float division by zero"
      else Except.ok (CiwDist.exponential (1 / r))
  else if dist_obj.type = "triangular" then
    match dictGet dist_obj.parameters "min", dictGet dist_obj.parameters "mode",
        dictGet dist_obj.parameters "max" with
    | Except.error e, _, _ => Except.error e
    | Except.ok _, Except.error e, _ => Except.error e
    | Except.ok _, Except.ok _, Except.error e => Except.error e
    | Except.ok lo, Except.ok mid, Except.ok hi => Except.ok (CiwDist.triangular lo mid hi)
  else if dist_obj.type = "uniform" then
    match dictGet dist_obj.parameters "min", dictGet dist_obj.parameters "max" with
    | Except.error e, _ => Except.error e
    | Except.ok _, Except.error e => Except.error e
    | Except.ok lo, Except.ok hi => Except.ok (CiwDist.uniform lo hi)
  else if dist_obj.type = "deterministic" then
    match dictGet dist_obj.parameters "value" with
    | Except.error e => Except.error e
    | Except.ok v => Except.ok (CiwDist.deterministic v)
  else Except.error ("Unsupported distribution type for Ciw: " ++ dist_obj.type)

/-- The parameter bundle returned by generate_params. -/
structure CiwParams where
  number_of_servers : List Int
  arrival_distributions : List (Option CiwDist)
  service_distributions : List CiwDist
  routing : List (List ℚ)
deriving DecidableEq, Repr

/-- The node_map dict comprehension of generate_params: activity name to
enumeration index; on a duplicate name a later activity overwrites an
earlier one, exactly like a Python dict comprehension. -/
def node_map : List Activity → Nat → String → Option Nat
  | [], _, _ => none
  | a :: rest, i, name =>
    match node_map rest (i + 1) name with
    | some j => some j
    | none => if a.name = name then some i else none

/-- The arrival-distribution branch of the per-activity loop: dispatch the
distribution when present, otherwise the `None` no-external-arrivals
sentinel. -/
def arrivalFor (a : Activity) : Except String (Option CiwDist) :=
  match a.arrival_distribution with
  | some d =>
    match make_ciw_dist d with
    | Except.error e => Except.error e
    | Except.ok cd => Except.ok (some cd)
  | none => Except.ok none

/-- The per-activity loop of generate_params (server counts, service
distributions, arrival distributions), in source order and with the source's
error order. -/
def buildNodeLists :
    List Activity → Except String (List Int × List CiwDist × List (Option CiwDist))
  | [] => Except.ok ([], [], [])
  | a :: rest =>
    match make_ciw_dist a.service_distribution with
    | Except.error e => Except.error e
    | Except.ok sd =>
      match arrivalFor a with
      | Except.error e => Except.error e
      | Except.ok ad =>
        match buildNodeLists rest with
        | Except.error e => Except.error e
        | Except.ok (ns, sds, ads) =>
          Except.ok (a.resource.capacity :: ns, sd :: sds, ad :: ads)

/-- The Python mutation `routing[i][j] = x` (a no-op out of range, which never
happens on the in-range indices produced by node_map). -/
def setEntry (mat : List (List ℚ)) (i j : Nat) (x : ℚ) : List (List ℚ) :=
  mat.set i ((mat.getD i []).set j x)

/-- Read `routing[i][j]`, defaulting to 0 out of range. -/
def entry (mat : List (List ℚ)) (i j : Nat) : ℚ :=
  (mat.getD i []).getD j 0

/-- The `[[0.0] * n_nodes for _ in range(n_nodes)]` initial matrix. -/
def initMatrix (n : Nat) : List (List ℚ) :=
  List.replicate n (List.replicate n (0 : ℚ))

/-- A square matrix of dimension n, as a list of rows. -/
def isMatrix (n : Nat) (mat : List (List ℚ)) : Prop :=
  mat.length = n ∧ ∀ row ∈ mat, row.length = n

/-- The routing-matrix loop of generate_params: transitions to "Exit" are
skipped entirely; otherwise both endpoints must be in node_map and the entry
is overwritten with the transition's probability. -/
def buildRouting (nm : String → Option Nat) :
    List (List ℚ) → List Transition → Except String (List (List ℚ))
  | mat, [] => Except.ok mat
  | mat, t :: ts =>
    if t.target = "Exit" then buildRouting nm mat ts
    else
      match nm t.source, nm t.target with
      | some u, some v => buildRouting nm (setEntry mat u v t.probability) ts
      | _, _ =>
        Except.error ("Transition references unknown node: " ++ t.source ++ " -> " ++ t.target)

/-- generate_params of engine.py (CiwConverter): node lists first, then the
routing matrix, then the bundle. -/
def generate_params (m : ProcessModel) : Except String CiwParams :=
  match buildNodeLists m.activities with
  | Except.error e => Except.error e
  | Except.ok (ns, sds, ads) =>
    match buildRouting (node_map m.activities 0)
        (initMatrix m.activities.length) m.transitions with
    | Except.error e => Except.error e
    | Except.ok routing =>
      Except.ok { number_of_servers := ns, arrival_distributions := ads,
                  service_distributions := sds, routing := routing }

/-- Success test for an Except value. -/
def okB {α : Type} : Except String α → Bool
  | Except.ok _ => true
  | Except.error _ => false

instance {ε α : Type} [DecidableEq ε] [DecidableEq α] : DecidableEq (Except ε α) := fun x y =>
  match x, y with
  | Except.ok a, Except.ok b =>
    if h : a = b then isTrue (by rw [h]) else isFalse (by intro hh; cases hh; exact h rfl)
  | Except.error a, Except.error b =>
    if h : a = b then isTrue (by rw [h]) else isFalse (by intro hh; cases hh; exact h rfl)
  | Except.ok _, Except.error _ => isFalse (by intro hh; cases hh)
  | Except.error _, Except.ok _ => isFalse (by intro hh; cases hh)

/-- The referential part of the construction invariant: every source names an
activity, every target names an activity or the sink literal. -/
def refsOk (m : ProcessModel) : Prop :=
  ∀ t ∈ m.transitions, t.source ∈ activityNames m ∧ t.target ∈ activityNames m ++ ["Exit"]

instance (m : ProcessModel) : Decidable (refsOk m) := by
  unfold refsOk
  exact List.decidableBAll _ _

/-- Name of the activity at position k, if any. -/
def nameAt (l : List Activity) (k : Nat) : Option String :=
  (l.get? k).map (fun a => a.name)

/-- The probability of the last transition in the list that writes routing
cell (i, j): target not "Exit" and node_map sending its endpoints to i, j. -/
def lastWrite (nm : String → Option Nat) (i j : Nat) : List Transition → Option ℚ
  | [] => none
  | t :: ts =>
    match lastWrite nm i j ts with
    | some p => some p
    | none =>
      if t.target ≠ "Exit" ∧ nm t.source = some i ∧ nm t.target = some j then
        some t.probability
      else none

/-- The probability of the last transition in the list with the given source
and target names. -/
def lastTrans (s g : String) : List Transition → Option ℚ
  | [] => none
  | t :: ts =>
    match lastTrans s g ts with
    | some p => some p
    | none => if t.source = s ∧ t.target = g then some t.probability else none

/-- Substring test on character lists. -/
def hasSub (pat : List Char) : List Char → Bool
  | [] => pat.isEmpty
  | c :: rest => pat.isPrefixOf (c :: rest) || hasSub pat rest

/-- Does the string s mention pat as a substring? -/
def mentions (s pat : String) : Bool := hasSub pat.toList s.toList

/-- The closed set of distribution types the dispatcher supports. -/
def supportedTypes : List String := ["exponential", "triangular", "uniform", "deterministic"]

/-- The parameter keys each distribution type reads. -/
def requiredKeys : String → List String := fun ty =>
  if ty = "exponential" then ["rate"]
  else if ty = "triangular" then ["min", "mode", "max"]
  else if ty = "uniform" then ["min", "max"]
  else if ty = "deterministic" then ["value"]
  else []

/-- Deterministic distribution literal used by the concrete example models. -/
def detDist (v : ℚ) : Distribution :=
  { type := "deterministic", parameters := [("value", v)] }

/-- Activity A of the accept example: capacity 1, entry point. -/
def actA : Activity :=
  { name := "A", type := "task", resource := { name := "ResA", capacity := 1 },
    service_distribution := detDist 1, arrival_distribution := some (detDist 5) }

/-- Activity B of the accept example: capacity 2, no external arrivals. -/
def actB : Activity :=
  { name := "B", type := "task", resource := { name := "ResB", capacity := 2 },
    service_distribution := detDist 2, arrival_distribution := none }

/-- The accept example of the spec: A(cap=1), B(cap=2), A to B with 1.0 and
B to Exit with 1.0. -/
def exC2 : ProcessModel :=
  { name := "example", description := none, activities := [actA, actB],
    transitions := [{ source := "A", target := "B", probability := 1 },
                    { source := "B", target := "Exit", probability := 1 }] }

/-- The bundle exC2 compiles to. -/
def bC2 : CiwParams :=
  { number_of_servers := [1, 2],
    arrival_distributions := [some (CiwDist.deterministic 5), none],
    service_distributions := [CiwDist.deterministic 1, CiwDist.deterministic 2],
    routing := [[0, 1], [0, 0]] }

/-- Activity Alpha of the reject example: some outgoing probability (0.5),
hence a bad sum, not a missing one. -/
def actAlpha : Activity :=
  { name := "Alpha", type := "task", resource := { name := "R1", capacity := 1 },
    service_distribution := detDist 1, arrival_distribution := some (detDist 2) }

/-- Activity Beta of the reject example: no outgoing transitions at all. -/
def actBeta : Activity :=
  { name := "Beta", type := "task", resource := { name := "R2", capacity := 1 },
    service_distribution := detDist 1, arrival_distribution := none }

/-- The reject example of the spec: Alpha to Beta with 0.5 only, so Alpha has
a bad sum (0.5) and Beta a zero sum. -/
def exC3 : ProcessModel :=
  { name := "reject-example", description := none, activities := [actAlpha, actBeta],
    transitions := [{ source := "Alpha", target := "Beta", probability := 1 / 2 }] }

/-- A model with two transitions whose sources are unknown activities. -/
def exC3b : ProcessModel :=
  { name := "unknown-sources", description := none, activities := [actAlpha, actBeta],
    transitions := [{ source := "Ghost", target := "Alpha", probability := 1 },
                    { source := "Phantom", target := "Alpha", probability := 1 },
                    { source := "Alpha", target := "Exit", probability := 1 },
                    { source := "Beta", target := "Exit", probability := 1 }] }

/-- A distribution of the unsupported type "lognormal". -/
def lognormalDist : Distribution :=
  { type := "lognormal", parameters := [("mu", 1), ("sigma", 1)] }

/-- The activity owning the unsupported distribution. -/
def actTriage : Activity :=
  { name := "Triage", type := "task", resource := { name := "Doc", capacity := 1 },
    service_distribution := lognormalDist, arrival_distribution := none }

/-- Model whose only activity has a lognormal service distribution. -/
def exC7 : ProcessModel :=
  { name := "unsupported-example", description := none, activities := [actTriage],
    transitions := [{ source := "Triage", target := "Exit", probability := 1 }] }

/-- First activity named "A" in the duplicate-name example. -/
def actAdup1 : Activity :=
  { name := "A", type := "task", resource := { name := "R1", capacity := 1 },
    service_distribution := detDist 1, arrival_distribution := some (detDist 2) }

/-- Activity "B" in the duplicate-name example. -/
def actBdup : Activity :=
  { name := "B", type := "task", resource := { name := "R2", capacity := 1 },
    service_distribution := detDist 1, arrival_distribution := none }

/-- Second activity named "A" (the last occurrence, index 2). -/
def actAdup2 : Activity :=
  { name := "A", type := "task", resource := { name := "R3", capacity := 3 },
    service_distribution := detDist 1, arrival_distribution := none }

/-- A model whose activity sequence contains two activities named "A". -/
def exC9 : ProcessModel :=
  { name := "dup", description := none, activities := [actAdup1, actBdup, actAdup2],
    transitions := [{ source := "A", target := "Exit", probability := 1 },
                    { source := "B", target := "A", probability := 1 / 2 },
                    { source := "B", target := "Exit", probability := 1 / 2 }] }

/-- A model with two parallel transitions A to B of probability 0.5 each. -/
def exC10 : ProcessModel :=
  { name := "dupedge", description := none, activities := [actA, actB],
    transitions := [{ source := "A", target := "B", probability := 1 / 2 },
                    { source := "A", target := "B", probability := 1 / 2 },
                    { source := "B", target := "Exit", probability := 1 }] }

/-- The bundle exC10 compiles to: the (A, B) entry is 0.5, not the
validated sum 1.0. -/
def bC10 : CiwParams :=
  { number_of_servers := [1, 2],
    arrival_distributions := [some (CiwDist.deterministic 5), none],
    service_distributions := [CiwDist.deterministic 1, CiwDist.deterministic 2],
    routing := [[0, 1 / 2], [0, 0]] }

/-- A deterministic distribution carrying an extra, unneeded parameter key. -/
def extraKeyDist : Distribution :=
  { type := "deterministic", parameters := [("value", 1), ("extra", 7)] }

/-- The exponential distribution of the spec's rate-to-mean test. -/
def expDist4 : Distribution :=
  { type := "exponential", parameters := [("rate", 4)] }

theorem checkRefs_ok_iff (names allowed : List String) (ts : List Transition) :
    checkRefs names allowed ts = Except.ok () ↔
      ∀ t ∈ ts, t.source ∈ names ∧ t.target ∈ allowed := by
  induction ts with
  | nil => simp [checkRefs]
  | cons t ts ih =>
    by_cases hs : t.source ∈ names
    · by_cases ht : t.target ∈ allowed
      · simp [checkRefs, hs, ht, ih]
      · simp [checkRefs, hs, ht]
    · simp [checkRefs, hs]

theorem missingNames_eq_nil (m : ProcessModel) :
    missingNames m = [] ↔ ∀ a ∈ m.activities, rowSum m.transitions a.name ≠ 0 := by
  simp [missingNames, List.map_eq_nil_iff, List.filter_eq_nil_iff]

theorem badSums_eq_nil (m : ProcessModel) :
    badSums m = [] ↔
      ∀ a ∈ m.activities,
        ¬(rowSum m.transitions a.name ≠ 0 ∧ |rowSum m.transitions a.name - 1| > tol) := by
  simp only [badSums, List.map_eq_nil_iff, List.filter_eq_nil_iff, decide_eq_true_eq]

theorem zero_sum_not_tol : ¬(|(0 : ℚ) - 1| ≤ tol) := by
  rw [zero_sub, abs_neg, abs_one]
  norm_num [tol]

theorem validate_ok_iff (m : ProcessModel) :
    okB (validate_transition_rows m) = true ↔
      refsOk m ∧ missingNames m = [] ∧ badSums m = [] := by
  unfold validate_transition_rows
  cases h : checkRefs (activityNames m) (activityNames m ++ ["Exit"]) m.transitions with
  | error e =>
    have href : ¬ refsOk m := by
      intro hr
      have h2 := (checkRefs_ok_iff (activityNames m) (activityNames m ++ ["Exit"])
        m.transitions).mpr hr
      rw [h] at h2
      exact Except.noConfusion h2
    simp [okB, href]
  | ok u =>
    cases u
    have href : refsOk m := (checkRefs_ok_iff _ _ _).mp h
    by_cases hm : missingNames m = []
    · by_cases hb : badSums m = []
      · simp [okB, hm, hb, href]
      · simp [okB, hm, hb]
    · simp [okB, hm]

theorem validate_missing_error (m : ProcessModel) (href : refsOk m)
    (hm : missingNames m ≠ []) :
    validate_transition_rows m = Except.error (missingMessage m) := by
  unfold validate_transition_rows
  have h := (checkRefs_ok_iff (activityNames m) (activityNames m ++ ["Exit"])
    m.transitions).mpr href
  rw [h]
  simp [hm]

theorem validate_bad_error (m : ProcessModel) (href : refsOk m)
    (hm : missingNames m = []) (hb : badSums m ≠ []) :
    validate_transition_rows m = Except.error (badMessage m) := by
  unfold validate_transition_rows
  have h := (checkRefs_ok_iff (activityNames m) (activityNames m ++ ["Exit"])
    m.transitions).mpr href
  rw [h]
  simp [hm, hb]

theorem construct_eq_validate (m : ProcessModel) (hf : m.fieldValidB = true) :
    m.construct = validate_transition_rows m := by
  unfold ProcessModel.construct
  rw [hf]
  rfl

theorem mem_missingNames (m : ProcessModel) (a : Activity) (ha : a ∈ m.activities)
    (h0 : rowSum m.transitions a.name = 0) : a.name ∈ missingNames m := by
  unfold missingNames
  exact List.mem_map_of_mem _ (List.mem_filter.mpr ⟨ha, by simp [h0]⟩)

theorem mem_badSums (m : ProcessModel) (a : Activity) (ha : a ∈ m.activities)
    (h0 : rowSum m.transitions a.name ≠ 0)
    (h1 : |rowSum m.transitions a.name - 1| > tol) :
    (a.name, rowSum m.transitions a.name) ∈ badSums m := by
  unfold badSums
  exact List.mem_map_of_mem _ (List.mem_filter.mpr ⟨ha, by simp [h0, h1]⟩)

theorem construct_ok_iff (m : ProcessModel) (hf : m.fieldValidB = true) :
    okB m.construct = true ↔
      refsOk m ∧ ∀ a ∈ m.activities, |rowSum m.transitions a.name - 1| ≤ tol := by
  rw [construct_eq_validate m hf, validate_ok_iff]
  constructor
  · rintro ⟨hr, hm, hb⟩
    refine ⟨hr, fun a ha => ?_⟩
    have h0 := (missingNames_eq_nil m).mp hm a ha
    have h1 := (badSums_eq_nil m).mp hb a ha
    by_contra hgt
    exact h1 ⟨h0, lt_of_not_le hgt⟩
  · rintro ⟨hr, htol⟩
    refine ⟨hr, (missingNames_eq_nil m).mpr fun a ha => ?_,
      (badSums_eq_nil m).mpr fun a ha => ?_⟩
    · intro h0
      exact zero_sum_not_tol (h0 ▸ htol a ha)
    · rintro ⟨-, hgt⟩
      exact absurd (htol a ha) (not_le_of_lt hgt)

/-- C1: for a model passing pydantic field validation (in particular every
transition probability in [0,1]), construction succeeds iff every
transition's source names an activity, every target names an activity or
"Exit", and every activity's accumulated outgoing sum is within 1e-9 of 1;
an activity with sum exactly 0 lands in the missing-outgoing-transitions
error (raised as such), and an activity with a nonzero sum beyond the
tolerance lands, with its actual sum, in the
probabilities-do-not-sum-to-1.0 error. -/
theorem claim_C1 (m : ProcessModel) (hf : m.fieldValidB = true) :
    (okB m.construct = true ↔
      refsOk m ∧ ∀ a ∈ m.activities, |rowSum m.transitions a.name - 1| ≤ tol)
  ∧ (∀ a ∈ m.activities, rowSum m.transitions a.name = 0 → a.name ∈ missingNames m)
  ∧ (refsOk m → missingNames m ≠ [] → m.construct = Except.error (missingMessage m))
  ∧ (∀ a ∈ m.activities, rowSum m.transitions a.name ≠ 0 →
      |rowSum m.transitions a.name - 1| > tol →
      (a.name, rowSum m.transitions a.name) ∈ badSums m)
  ∧ (refsOk m → missingNames m = [] → badSums m ≠ [] →
      m.construct = Except.error (badMessage m)) :=
  ⟨construct_ok_iff m hf,
   fun a ha h0 => mem_missingNames m a ha h0,
   fun hr hm => (construct_eq_validate m hf).trans (validate_missing_error m hr hm),
   fun a ha h0 h1 => mem_badSums m a ha h0 h1,
   fun hr hm hb => (construct_eq_validate m hf).trans (validate_bad_error m hr hm hb)⟩

/-- C1 witness: the accept example passes field validation and constructs
successfully, via the iff of claim_C1. -/
theorem claim_C1_witness : exC2.fieldValidB = true ∧ okB exC2.construct = true :=
  ⟨by with_unfolding_all decide,
   (claim_C1 exC2 (by with_unfolding_all decide)).1.mpr
     ⟨by with_unfolding_all decide, by with_unfolding_all decide⟩⟩

/-- C3 counterexample: the validator does not collect all violations.  exC3
has both a bad-sum activity (Alpha, sum 0.5) and a zero-sum activity (Beta),
yet the single raised error is the missing-outgoing-transitions one and
never mentions Alpha; exC3b has two unknown-source transitions, yet the
raised error names only the first (Ghost), never Phantom. -/
theorem claim_C3_counterexample :
    exC3.construct =
      Except.error "Missing outgoing transitions for activities (sum=0.0): Beta"
  ∧ badSums exC3 = [("Alpha", 1 / 2)]
  ∧ mentions "Missing outgoing transitions for activities (sum=0.0): Beta" "Alpha" = false
  ∧ exC3b.construct = Except.error "Transition 'from' unknown activity: Ghost"
  ∧ mentions "Transition 'from' unknown activity: Ghost" "Phantom" = false := by
  with_unfolding_all decide

/-- C3 amended: the validator raises at the first unknown source or target;
with valid references it reports all zero-sum activities together in one
missing-outgoing-transitions error, and a model containing both a bad-sum
and a zero-sum activity reports only the missing kind. -/
theorem claim_C3_amended (m : ProcessModel) (hf : m.fieldValidB = true) (hr : refsOk m)
    (hm : missingNames m ≠ []) (_hb : badSums m ≠ []) :
    m.construct = Except.error (missingMessage m)
  ∧ ∀ a ∈ m.activities, rowSum m.transitions a.name = 0 → a.name ∈ missingNames m :=
  ⟨(construct_eq_validate m hf).trans (validate_missing_error m hr hm),
   fun a ha h0 => mem_missingNames m a ha h0⟩

/-- C3 amended witness: exC3 satisfies all hypotheses and indeed fails with
exactly the missing-outgoing-transitions message. -/
theorem claim_C3_amended_witness :
    exC3.fieldValidB = true ∧ refsOk exC3 ∧ missingNames exC3 ≠ [] ∧ badSums exC3 ≠ [] ∧
    exC3.construct = Except.error (missingMessage exC3) :=
  ⟨by with_unfolding_all decide, by with_unfolding_all decide, by with_unfolding_all decide,
   by with_unfolding_all decide,
   (claim_C3_amended exC3 (by with_unfolding_all decide) (by with_unfolding_all decide)
     (by with_unfolding_all decide) (by with_unfolding_all decide)).1⟩

/-- C4: for an exponential distribution with a nonzero rate r, the dispatcher
constructs the distribution with mean parameter 1/r; in particular rate 4.0
yields mean 0.25. -/
theorem claim_C4 (d : Distribution) (r : ℚ) (htype : d.type = "exponential")
    (hr : d.parameters.lookup "rate" = some r) (hnz : r ≠ 0) :
    make_ciw_dist d = Except.ok (CiwDist.exponential (1 / r))
  ∧ make_ciw_dist expDist4 = Except.ok (CiwDist.exponential 0.25) := by
  constructor
  · unfold make_ciw_dist dictGet
    rw [htype]
    simp [hr, hnz]
  · with_unfolding_all decide

/-- C4 witness: the concrete rate-4 distribution satisfies the hypotheses and
dispatches to the exponential with mean 1/4. -/
theorem claim_C4_witness :
    expDist4.type = "exponential" ∧ expDist4.parameters.lookup "rate" = some 4 ∧
    (4 : ℚ) ≠ 0 ∧ make_ciw_dist expDist4 = Except.ok (CiwDist.exponential (1 / 4)) :=
  ⟨rfl, by with_unfolding_all decide, by with_unfolding_all decide,
   (claim_C4 expDist4 4 rfl (by with_unfolding_all decide)
     (by with_unfolding_all decide)).1⟩

/-- C8 counterexample: the requirement that parameters contain exactly the
keys the type needs is not validated at compile time: a deterministic
distribution with an extra key "extra" beyond the required ["value"]
dispatches without any error. -/
theorem claim_C8_counterexample :
    make_ciw_dist extraKeyDist = Except.ok (CiwDist.deterministic 1)
  ∧ extraKeyDist.parameters.lookup "extra" = some 7
  ∧ requiredKeys extraKeyDist.type = ["value"] := by
  with_unfolding_all decide

/-- C8 amended: a required parameter missing from the mapping makes the
compiler's dispatcher fail (the check happens there, not at construction:
pydantic's field check on a Distribution depends only on its type), but
extra keys are not rejected. -/
theorem claim_C8_amended (d : Distribution) :
    (∀ k ∈ requiredKeys d.type, d.parameters.lookup k = none →
      okB (make_ciw_dist d) = false)
  ∧ Distribution.typeOk d = Distribution.typeOk { type := d.type, parameters := [] } := by
  refine ⟨?_, rfl⟩
  intro k hk hnone
  unfold make_ciw_dist
  by_cases h1 : d.type = "exponential"
  · simp only [requiredKeys] at hk
    simp [h1] at hk
    subst hk
    simp [h1, dictGet, hnone, okB]
  · by_cases h2 : d.type = "triangular"
    · simp only [requiredKeys] at hk
      simp [h1, h2] at hk
      rcases hk with hk | hk | hk <;> subst hk
      · simp [h1, h2, dictGet, hnone, okB]
      · cases hmin : d.parameters.lookup "min" with
        | none => simp [h1, h2, dictGet, hmin, okB]
        | some v => simp [h1, h2, dictGet, hmin, hnone, okB]
      · cases hmin : d.parameters.lookup "min" with
        | none => simp [h1, h2, dictGet, hmin, okB]
        | some v =>
          cases hmode : d.parameters.lookup "mode" with
          | none => simp [h1, h2, dictGet, hmin, hmode, okB]
          | some w => simp [h1, h2, dictGet, hmin, hmode, hnone, okB]
    · by_cases h3 : d.type = "uniform"
      · simp only [requiredKeys] at hk
        simp [h1, h2, h3] at hk
        rcases hk with hk | hk <;> subst hk
        · simp [h1, h2, h3, dictGet, hnone, okB]
        · cases hmin : d.parameters.lookup "min" with
          | none => simp [h1, h2, h3, dictGet, hmin, okB]
          | some v => simp [h1, h2, h3, dictGet, hmin, hnone, okB]
      · by_cases h4 : d.type = "deterministic"
        · simp only [requiredKeys] at hk
          simp [h1, h2, h3, h4] at hk
          subst hk
          simp [h1, h2, h3, h4, dictGet, hnone, okB]
        · simp [requiredKeys, h1, h2, h3, h4] at hk

/-- C8 amended witness: an exponential distribution with an empty parameters
mapping is rejected by the dispatcher. -/
theorem claim_C8_amended_witness :
    "rate" ∈ requiredKeys (Distribution.mk "exponential" []).type ∧
    (Distribution.mk "exponential" []).parameters.lookup "rate" = none ∧
    okB (make_ciw_dist (Distribution.mk "exponential" [])) = false :=
  ⟨by with_unfolding_all decide, by with_unfolding_all decide,
   (claim_C8_amended (Distribution.mk "exponential" [])).1 "rate"
     (by with_unfolding_all decide) (by with_unfolding_all decide)⟩

theorem node_map_eq_none (l : List Activity) (i : Nat) (name : String) :
    node_map l i name = none ↔ ∀ k, nameAt l k ≠ some name := by
  induction l generalizing i with
  | nil => simp [node_map, nameAt]
  | cons a rest ih =>
    constructor
    · intro h k
      have hrest : node_map rest (i + 1) name = none := by
        cases hr : node_map rest (i + 1) name with
        | some j => rw [node_map, hr] at h; exact absurd h (by simp)
        | none => rfl
      have hm : ¬ a.name = name := by
        rw [node_map, hrest] at h
        by_contra hc
        rw [if_pos hc] at h
        exact absurd h (by simp)
      cases k with
      | zero => simp [nameAt, hm]
      | succ k' =>
        have := (ih (i + 1)).mp hrest k'
        simpa [nameAt] using this
    · intro hall
      have hrest : node_map rest (i + 1) name = none :=
        (ih (i + 1)).mpr fun k => by
          have := hall (k + 1)
          simpa [nameAt] using this
      have hm : ¬ a.name = name := by
        have := hall 0
        simpa [nameAt] using this
      rw [node_map, hrest, if_neg hm]

theorem node_map_eq_some (l : List Activity) (i : Nat) (name : String) (j : Nat) :
    node_map l i name = some j ↔
      ∃ k, j = i + k ∧ nameAt l k = some name ∧
        ∀ k', k < k' → nameAt l k' ≠ some name := by
  induction l generalizing i j with
  | nil => simp [node_map, nameAt]
  | cons a rest ih =>
    cases h : node_map rest (i + 1) name with
    | some j' =>
      rw [node_map, h]
      obtain ⟨k0, hk0j, hk0n, hk0last⟩ := (ih (i + 1) j').mp h
      constructor
      · intro hjj
        have hj : j = j' := by injection hjj with hh; exact hh.symm
        refine ⟨k0 + 1, by omega, by simpa [nameAt] using hk0n, ?_⟩
        intro k' hk' hc
        cases k' with
        | zero => omega
        | succ k'' => exact hk0last k'' (by omega) (by simpa [nameAt] using hc)
      · rintro ⟨k, hkj, hkn, hklast⟩
        cases k with
        | zero =>
          exact absurd (show nameAt (a :: rest) (k0 + 1) = some name by
            simpa [nameAt] using hk0n) (hklast (k0 + 1) (Nat.succ_pos _))
        | succ k'' =>
          have hr : node_map rest (i + 1) name = some ((i + 1) + k'') :=
            (ih (i + 1) _).mpr ⟨k'', rfl, by simpa [nameAt] using hkn,
              fun k' hlt hc => hklast (k' + 1) (by omega) (by simpa [nameAt] using hc)⟩
          rw [h] at hr
          have : j' = (i + 1) + k'' := by injection hr
          simp only [Option.some.injEq]
          omega
    | none =>
      rw [node_map, h]
      have hnone := (node_map_eq_none rest (i + 1) name).mp h
      by_cases hm : a.name = name
      · rw [if_pos hm]
        constructor
        · intro hij
          have hj : j = i := by injection hij with hh; exact hh.symm
          refine ⟨0, by omega, by simp [nameAt, hm], ?_⟩
          intro k' hk' hc
          cases k' with
          | zero => omega
          | succ k'' => exact hnone k'' (by simpa [nameAt] using hc)
        · rintro ⟨k, hkj, hkn, hklast⟩
          cases k with
          | zero => simp only [Option.some.injEq]; omega
          | succ k'' => exact absurd (by simpa [nameAt] using hkn) (hnone k'')
      · rw [if_neg hm]
        constructor
        · intro hc; exact absurd hc (by simp)
        · rintro ⟨k, hkj, hkn, hklast⟩
          cases k with
          | zero => exact absurd (by simpa [nameAt] using hkn) hm
          | succ k'' => exact absurd (by simpa [nameAt] using hkn) (hnone k'')

theorem node_map_lt (l : List Activity) (name : String) (j : Nat)
    (h : node_map l 0 name = some j) : j < l.length := by
  obtain ⟨k, hk, hn, -⟩ := (node_map_eq_some l 0 name j).mp h
  have hj : j = k := by omega
  subst hj
  unfold nameAt at hn
  cases hg : l.get? j with
  | none => rw [hg] at hn; exact absurd hn (by simp)
  | some a =>
    by_contra hlt
    have hle : l.length ≤ j := by omega
    rw [List.get?_eq_none.mpr hle] at hg
    exact Option.noConfusion hg

theorem node_map_last (l : List Activity) (name : String) (j : Nat)
    (h : node_map l 0 name = some j) :
    nameAt l j = some name ∧ ∀ k, j < k → nameAt l k ≠ some name := by
  obtain ⟨k, hk, hn, hlast⟩ := (node_map_eq_some l 0 name j).mp h
  have hj : j = k := by omega
  subst hj
  exact ⟨hn, hlast⟩

theorem node_map_inj (l : List Activity) (n1 n2 : String) (u : Nat)
    (h1 : node_map l 0 n1 = some u) (h2 : node_map l 0 n2 = some u) : n1 = n2 := by
  have g1 := (node_map_last l n1 u h1).1
  have g2 := (node_map_last l n2 u h2).1
  rw [g1] at g2
  injection g2

theorem node_map_isSome_of_mem (l : List Activity) (name : String)
    (h : name ∈ l.map (fun a => a.name)) : ∃ u, node_map l 0 name = some u := by
  cases hn : node_map l 0 name with
  | some u => exact ⟨u, rfl⟩
  | none =>
    exfalso
    have hall := (node_map_eq_none l 0 name).mp hn
    obtain ⟨a, ha, hname⟩ := List.mem_map.mp h
    obtain ⟨k, hk⟩ := List.mem_iff_get?.mp ha
    exact hall k (by unfold nameAt; rw [hk]; simp [hname])

theorem getD_cons_zero {α : Type} (x : α) (l : List α) (d : α) : (x :: l).getD 0 d = x := rfl

theorem getD_cons_succ {α : Type} (x : α) (l : List α) (k : Nat) (d : α) :
    (x :: l).getD (k + 1) d = l.getD k d := rfl

theorem getD_of_length_le {α : Type} (l : List α) (i : Nat) (d : α)
    (h : l.length ≤ i) : l.getD i d = d := by
  induction l generalizing i with
  | nil => rfl
  | cons x l ih =>
    cases i with
    | zero => simp at h
    | succ i' => rw [getD_cons_succ]; exact ih i' (by simpa using h)

theorem getD_set_eq {α : Type} (l : List α) (i : Nat) (a d : α) (h : i < l.length) :
    (l.set i a).getD i d = a := by
  induction l generalizing i with
  | nil => simp at h
  | cons x l ih =>
    cases i with
    | zero => rfl
    | succ i' => exact ih i' (by simpa using h)

theorem getD_set_ne {α : Type} (l : List α) (i k : Nat) (a d : α) (h : i ≠ k) :
    (l.set i a).getD k d = l.getD k d := by
  induction l generalizing i k with
  | nil => rfl
  | cons x l ih =>
    cases i with
    | zero =>
      cases k with
      | zero => exact absurd rfl h
      | succ k' => rfl
    | succ i' =>
      cases k with
      | zero => rfl
      | succ k' => exact ih i' k' (by omega)

theorem getD_mem_of_lt {α : Type} (l : List α) (i : Nat) (d : α) (h : i < l.length) :
    l.getD i d ∈ l := by
  induction l generalizing i with
  | nil => simp at h
  | cons x l ih =>
    cases i with
    | zero => exact List.mem_cons_self x l
    | succ i' => exact List.mem_cons_of_mem x (ih i' (by simpa using h))

theorem getD_replicate_cases {α : Type} (x d : α) (n i : Nat) :
    (List.replicate n x).getD i d = x ∨ (List.replicate n x).getD i d = d := by
  induction n generalizing i with
  | zero => right; rfl
  | succ n ih =>
    cases i with
    | zero => left; rfl
    | succ i' => exact ih i'

theorem entry_initMatrix (n i j : Nat) : entry (initMatrix n) i j = 0 := by
  unfold entry initMatrix
  rcases getD_replicate_cases (List.replicate n (0 : ℚ)) [] n i with h | h <;> rw [h]
  · rcases getD_replicate_cases (0 : ℚ) 0 n j with h2 | h2 <;> rw [h2]
  · rfl

theorem isMatrix_initMatrix (n : Nat) : isMatrix n (initMatrix n) := by
  constructor
  · simp [initMatrix]
  · intro row hrow
    rw [List.eq_of_mem_replicate hrow]
    simp

theorem setEntry_out (mat : List (List ℚ)) (u v : Nat) (x : ℚ)
    (hu : mat.length ≤ u) : setEntry mat u v x = mat := by
  unfold setEntry
  exact List.set_eq_of_length_le hu

theorem isMatrix_setEntry (n : Nat) (mat : List (List ℚ)) (u v : Nat) (x : ℚ)
    (hm : isMatrix n mat) : isMatrix n (setEntry mat u v x) := by
  obtain ⟨hlen, hrows⟩ := hm
  by_cases hu : u < mat.length
  · constructor
    · rw [setEntry, List.length_set, hlen]
    · intro row hrow
      unfold setEntry at hrow
      rcases List.mem_or_eq_of_mem_set hrow with h | h
      · exact hrows row h
      · subst h
        rw [List.length_set]
        exact hrows _ (getD_mem_of_lt mat u [] hu)
  · rw [setEntry_out mat u v x (by omega)]
    exact ⟨hlen, hrows⟩

theorem entry_setEntry (n : Nat) (mat : List (List ℚ)) (u v : Nat) (x : ℚ)
    (hm : isMatrix n mat) (hu : u < n) (hv : v < n) (i j : Nat) :
    entry (setEntry mat u v x) i j = if i = u ∧ j = v then x else entry mat i j := by
  obtain ⟨hlen, hrows⟩ := hm
  unfold entry setEntry
  by_cases hi : i = u
  · subst hi
    rw [getD_set_eq mat i _ [] (by omega)]
    by_cases hj : j = v
    · subst hj
      rw [getD_set_eq _ j x 0 ?_]
      · simp
      · rw [hrows _ (getD_mem_of_lt mat i [] (by omega))]
        omega
    · rw [getD_set_ne _ v j x 0 (fun hh => hj hh.symm)]
      simp [hj]
  · rw [getD_set_ne mat u i _ [] (fun hh => hi hh.symm)]
    simp [hi]

theorem buildRouting_ok_entry (nm : String → Option Nat) (n : Nat)
    (hnm : ∀ name u, nm name = some u → u < n) (ts : List Transition) :
    ∀ mat mat', isMatrix n mat → buildRouting nm mat ts = Except.ok mat' →
      isMatrix n mat' ∧
      ∀ i j, entry mat' i j = (lastWrite nm i j ts).getD (entry mat i j) := by
  induction ts with
  | nil =>
    intro mat mat' hm h
    simp only [buildRouting] at h
    have hmm : mat = mat' := by injection h
    subst hmm
    exact ⟨hm, fun i j => by simp [lastWrite]⟩
  | cons t ts ih =>
    intro mat mat' hm h
    simp only [buildRouting] at h
    by_cases hexit : t.target = "Exit"
    · rw [if_pos hexit] at h
      obtain ⟨hm', hent⟩ := ih mat mat' hm h
      refine ⟨hm', fun i j => ?_⟩
      rw [hent i j]
      have hlw : lastWrite nm i j (t :: ts) = lastWrite nm i j ts := by
        simp only [lastWrite]
        cases lastWrite nm i j ts with
        | some p => rfl
        | none => rw [if_neg (fun hc => hc.1 hexit)]
      rw [hlw]
    · rw [if_neg hexit] at h
      split at h
      next u v hsrc htgt =>
        have hu : u < n := hnm _ _ hsrc
        have hv : v < n := hnm _ _ htgt
        obtain ⟨hm', hent⟩ := ih _ mat' (isMatrix_setEntry n mat u v t.probability hm) h
        refine ⟨hm', fun i j => ?_⟩
        rw [hent i j, entry_setEntry n mat u v t.probability hm hu hv i j]
        simp only [lastWrite]
        cases hlw : lastWrite nm i j ts with
        | some p => simp
        | none =>
          simp only [Option.getD_none]
          by_cases hij : i = u ∧ j = v
          · obtain ⟨hiu, hjv⟩ := hij
            subst hiu
            subst hjv
            simp [hexit, hsrc, htgt]
          · rw [if_neg hij, if_neg ?_]
            · simp
            · rintro ⟨-, h1, h2⟩
              apply hij
              rw [hsrc] at h1
              rw [htgt] at h2
              exact ⟨(Option.some.inj h1).symm, (Option.some.inj h2).symm⟩
      next hcatch =>
        exact absurd h (by simp)

theorem buildRouting_bounds (nm : String → Option Nat) (ts : List Transition) :
    ∀ mat mat', (∀ t ∈ ts, 0 ≤ t.probability ∧ t.probability ≤ 1) →
      (∀ row ∈ mat, ∀ x ∈ row, 0 ≤ x ∧ x ≤ 1) →
      buildRouting nm mat ts = Except.ok mat' →
      ∀ row ∈ mat', ∀ x ∈ row, 0 ≤ x ∧ x ≤ 1 := by
  induction ts with
  | nil =>
    intro mat mat' _ hmat h
    simp only [buildRouting] at h
    have hmm : mat = mat' := by injection h
    subst hmm
    exact hmat
  | cons t ts ih =>
    intro mat mat' hts hmat h
    simp only [buildRouting] at h
    by_cases hexit : t.target = "Exit"
    · rw [if_pos hexit] at h
      exact ih mat mat' (fun t' ht' => hts t' (List.mem_cons_of_mem t ht')) hmat h
    · rw [if_neg hexit] at h
      split at h
      next u v hsrc htgt =>
        refine ih _ mat' (fun t' ht' => hts t' (List.mem_cons_of_mem t ht')) ?_ h
        intro row hrow x hx
        unfold setEntry at hrow
        rcases List.mem_or_eq_of_mem_set hrow with hr | hr
        · exact hmat row hr x hx
        · subst hr
          rcases List.mem_or_eq_of_mem_set hx with hx' | hx'
          · by_cases hu : u < mat.length
            · exact hmat _ (getD_mem_of_lt mat u [] hu) x hx'
            · rw [getD_of_length_le mat u [] (by omega)] at hx'
              exact absurd hx' (List.not_mem_nil x)
          · subst hx'
            exact hts t (List.mem_cons_self t ts)
      next hcatch => exact absurd h (by simp)

theorem buildNodeLists_ok (acts : List Activity) (ns : List Int) (sds : List CiwDist)
    (ads : List (Option CiwDist)) (h : buildNodeLists acts = Except.ok (ns, sds, ads)) :
    ns = acts.map (fun a => a.resource.capacity) ∧
    sds.length = acts.length ∧ ads.length = acts.length ∧
    (∀ i a, acts.get? i = some a →
      (∃ cd, make_ciw_dist a.service_distribution = Except.ok cd ∧ sds.get? i = some cd) ∧
      (a.arrival_distribution = none → ads.get? i = some none) ∧
      (∀ d, a.arrival_distribution = some d →
        ∃ cd, make_ciw_dist d = Except.ok cd ∧ ads.get? i = some (some cd))) := by
  induction acts generalizing ns sds ads with
  | nil =>
    simp only [buildNodeLists] at h
    rw [Except.ok.injEq, Prod.mk.injEq, Prod.mk.injEq] at h
    obtain ⟨hns, hsds, hads⟩ := h
    subst hns
    subst hsds
    subst hads
    refine ⟨rfl, rfl, rfl, ?_⟩
    intro i a hx
    simp at hx
  | cons a rest ih =>
    simp only [buildNodeLists] at h
    split at h
    next e h1 => exact absurd h (by simp)
    next sd h1 =>
      split at h
      next e h2 => exact absurd h (by simp)
      next ad h2 =>
        split at h
        next e h3 => exact absurd h (by simp)
        next ns' sds' ads' h3 =>
          rw [Except.ok.injEq, Prod.mk.injEq, Prod.mk.injEq] at h
          obtain ⟨hns, hsds, hads⟩ := h
          subst hns
          subst hsds
          subst hads
          obtain ⟨ihns, ihsl, ihal, ihget⟩ := ih ns' sds' ads' h3
          refine ⟨by simp [ihns], by simp [ihsl], by simp [ihal], ?_⟩
          intro i x hx
          cases i with
          | zero =>
            have hxa : x = a := by
              rw [List.get?_cons_zero] at hx
              exact (Option.some.inj hx).symm
            subst hxa
            refine ⟨⟨sd, h1, rfl⟩, ?_, ?_⟩
            · intro hnone
              unfold arrivalFor at h2
              rw [hnone] at h2
              simp only [Except.ok.injEq] at h2
              subst h2
              rfl
            · intro d hd
              unfold arrivalFor at h2
              rw [hd] at h2
              have h2' : (match make_ciw_dist d with
                  | Except.error e => (Except.error e : Except String (Option CiwDist))
                  | Except.ok cd => Except.ok (some cd)) = Except.ok ad := h2
              cases hmk : make_ciw_dist d with
              | error e =>
                rw [hmk] at h2'
                simp at h2'
              | ok cd =>
                rw [hmk] at h2'
                simp only [Except.ok.injEq] at h2'
                subst h2'
                exact ⟨cd, rfl, rfl⟩
          | succ i' => exact ihget i' x (by simpa using hx)

theorem generate_params_ok_inv (m : ProcessModel) (b : CiwParams)
    (h : generate_params m = Except.ok b) :
    ∃ ns sds ads mat,
      buildNodeLists m.activities = Except.ok (ns, sds, ads) ∧
      buildRouting (node_map m.activities 0) (initMatrix m.activities.length)
        m.transitions = Except.ok mat ∧
      b = ⟨ns, ads, sds, mat⟩ := by
  unfold generate_params at h
  split at h
  next e heq => exact absurd h (by simp)
  next ns sds ads heq =>
    split at h
    next e heq2 => exact absurd h (by simp)
    next mat heq2 =>
      have hb : b = ⟨ns, ads, sds, mat⟩ := by injection h with hh; exact hh.symm
      exact ⟨ns, sds, ads, mat, heq, heq2, hb⟩

theorem lastWrite_eq_lastTrans (l : List Activity) (s g : String) (u v : Nat)
    (hs : node_map l 0 s = some u) (hg : node_map l 0 g = some v)
    (hexit : g ≠ "Exit") (ts : List Transition) :
    lastWrite (node_map l 0) u v ts = lastTrans s g ts := by
  induction ts with
  | nil => rfl
  | cons t ts ih =>
    simp only [lastWrite, lastTrans, ih]
    cases lastTrans s g ts with
    | some p => rfl
    | none =>
      by_cases hc : t.source = s ∧ t.target = g
      · obtain ⟨h1, h2⟩ := hc
        rw [if_pos ⟨by rw [h2]; exact hexit, by rw [h1]; exact hs, by rw [h2]; exact hg⟩,
          if_pos ⟨h1, h2⟩]
      · rw [if_neg ?_, if_neg hc]
        rintro ⟨hne, hsrc, htgt⟩
        apply hc
        exact ⟨node_map_inj l t.source s u hsrc hs, node_map_inj l t.target g v htgt hg⟩

theorem fieldValid_transitions (m : ProcessModel) (hf : m.fieldValidB = true) :
    ∀ t ∈ m.transitions, 0 ≤ t.probability ∧ t.probability ≤ 1 := by
  intro t ht
  unfold ProcessModel.fieldValidB at hf
  rw [Bool.and_eq_true] at hf
  have h := List.all_eq_true.mp hf.2 t ht
  unfold Transition.fieldValidB at h
  rw [Bool.and_eq_true, decide_eq_true_eq, decide_eq_true_eq] at h
  exact h

theorem okB_exists {α : Type} (x : Except String α) (h : okB x = true) :
    ∃ v, x = Except.ok v := by
  cases x with
  | ok v => exact ⟨v, rfl⟩
  | error e => exact absurd h (by simp [okB])

theorem arrivalFor_ok_of (a : Activity)
    (h : ∀ d, a.arrival_distribution = some d → okB (make_ciw_dist d) = true) :
    ∃ ad, arrivalFor a = Except.ok ad := by
  unfold arrivalFor
  cases had : a.arrival_distribution with
  | none => exact ⟨none, rfl⟩
  | some d =>
    have h2 := h d had
    obtain ⟨cd, hcd⟩ := okB_exists _ h2
    refine ⟨some cd, ?_⟩
    show (match make_ciw_dist d with
      | Except.error e => (Except.error e : Except String (Option CiwDist))
      | Except.ok cd => Except.ok (some cd)) = Except.ok (some cd)
    rw [hcd]

theorem make_ciw_dist_unsupported (d : Distribution) (h : d.type ∉ supportedTypes) :
    make_ciw_dist d =
      Except.error ("Unsupported distribution type for Ciw: " ++ d.type) := by
  simp only [supportedTypes, List.mem_cons, List.not_mem_nil, or_false, not_or] at h
  obtain ⟨h1, h2, h3, h4⟩ := h
  unfold make_ciw_dist
  rw [if_neg h1, if_neg h2, if_neg h3, if_neg h4]

theorem buildNodeLists_prefix_ok (pre rest : List Activity) (e : String)
    (hpre : ∀ a' ∈ pre, okB (make_ciw_dist a'.service_distribution) = true ∧
      ∀ d, a'.arrival_distribution = some d → okB (make_ciw_dist d) = true)
    (hrest : buildNodeLists rest = Except.error e) :
    buildNodeLists (pre ++ rest) = Except.error e := by
  induction pre with
  | nil => simpa using hrest
  | cons a pre ih =>
    obtain ⟨hs, harr⟩ := hpre a (List.mem_cons_self a pre)
    obtain ⟨sd, hsd⟩ := okB_exists _ hs
    obtain ⟨ad, had⟩ := arrivalFor_ok_of a harr
    have ihh := ih fun a' ha' => hpre a' (List.mem_cons_of_mem a ha')
    simp only [List.cons_append, buildNodeLists, hsd, had]
    rw [List.append_eq, ihh]

theorem validate_ok_eq (m : ProcessModel)
    (h : okB (validate_transition_rows m) = true) :
    validate_transition_rows m = Except.ok m := by
  cases hc : checkRefs (activityNames m) (activityNames m ++ ["Exit"]) m.transitions with
  | error e =>
    unfold validate_transition_rows at h
    rw [hc] at h
    exact absurd h (by simp [okB])
  | ok u =>
    cases u
    unfold validate_transition_rows at h ⊢
    rw [hc] at h ⊢
    by_cases hm : missingNames m ≠ []
    · rw [if_pos hm] at h
      exact absurd h (by simp [okB])
    · rw [if_neg hm] at h ⊢
      by_cases hbb : badSums m ≠ []
      · rw [if_pos hbb] at h
        exact absurd h (by simp [okB])
      · rw [if_neg hbb]

/-- C2: for a validated model, whenever compilation succeeds the routing
matrix is the N-by-N zero-initialized matrix updated, for each transition
with a non-"Exit" target, at row index(source) and column index(target)
with that transition's probability (the last such write winning, "Exit"
transitions never written); in particular the A(cap 1)/B(cap 2) example
compiles to server counts [1, 2] and routing [[0, 1], [0, 0]]. -/
theorem claim_C2 (m : ProcessModel) (_hok : okB m.construct = true) :
    (∀ b, generate_params m = Except.ok b →
      b.routing.length = m.activities.length ∧
      (∀ row ∈ b.routing, row.length = m.activities.length) ∧
      (∀ i j, entry b.routing i j =
        (lastWrite (node_map m.activities 0) i j m.transitions).getD 0))
  ∧ generate_params exC2 = Except.ok bC2 := by
  constructor
  · intro b hb
    obtain ⟨ns, sds, ads, mat, h1, h2, h3⟩ := generate_params_ok_inv m b hb
    subst h3
    obtain ⟨⟨hlen, hrows⟩, hent⟩ := buildRouting_ok_entry (node_map m.activities 0)
      m.activities.length (fun name u h => node_map_lt m.activities name u h)
      m.transitions (initMatrix m.activities.length) mat (isMatrix_initMatrix _) h2
    refine ⟨hlen, hrows, fun i j => ?_⟩
    rw [hent i j, entry_initMatrix]
  · with_unfolding_all decide

/-- C2 witness: the accept example is validated and compiles to exactly the
bundle of the claim. -/
theorem claim_C2_witness :
    okB exC2.construct = true ∧ generate_params exC2 = Except.ok bC2 :=
  ⟨by with_unfolding_all decide, (claim_C2 exC2 (by with_unfolding_all decide)).2⟩

/-- C5: for a validated model, a successful compilation yields server-count,
service-distribution and arrival-distribution lists of length N in activity
order (server counts are exactly the capacities, the service list holds a
dispatched distribution at every index, hence no nulls), and an activity has
the None no-arrivals sentinel at its index exactly when it has no
arrival_distribution. -/
theorem claim_C5 (m : ProcessModel) (_hf : m.fieldValidB = true)
    (_hok : okB m.construct = true) (b : CiwParams)
    (hb : generate_params m = Except.ok b) :
    b.number_of_servers.length = m.activities.length ∧
    b.service_distributions.length = m.activities.length ∧
    b.arrival_distributions.length = m.activities.length ∧
    b.number_of_servers = m.activities.map (fun a => a.resource.capacity) ∧
    ∀ i a, m.activities.get? i = some a →
      ((a.arrival_distribution = none ↔ b.arrival_distributions.get? i = some none) ∧
       ∃ cd, make_ciw_dist a.service_distribution = Except.ok cd ∧
         b.service_distributions.get? i = some cd) := by
  obtain ⟨ns, sds, ads, mat, h1, h2, h3⟩ := generate_params_ok_inv m b hb
  subst h3
  obtain ⟨hns, hsl, hal, hget⟩ := buildNodeLists_ok m.activities ns sds ads h1
  refine ⟨by rw [hns]; simp, hsl, hal, hns, ?_⟩
  intro i a ha
  obtain ⟨hsvc, hnone, hsome⟩ := hget i a ha
  refine ⟨⟨fun h => hnone h, fun h => ?_⟩, hsvc⟩
  cases harr : a.arrival_distribution with
  | none => rfl
  | some d =>
    obtain ⟨cd, -, hia⟩ := hsome d harr
    rw [h] at hia
    exact absurd hia (by simp)

/-- C5 witness: in the compiled accept example, activity B (index 1, no
arrival_distribution) gets the None sentinel at index 1. -/
theorem claim_C5_witness :
    exC2.fieldValidB = true ∧ okB exC2.construct = true ∧
    generate_params exC2 = Except.ok bC2 ∧
    bC2.arrival_distributions.get? 1 = some none :=
  ⟨by with_unfolding_all decide, by with_unfolding_all decide,
   by with_unfolding_all decide,
   ((claim_C5 exC2 (by with_unfolding_all decide) (by with_unfolding_all decide) bC2
     (by with_unfolding_all decide)).2.2.2.2 1 actB rfl).1.mp rfl⟩

/-- C6: for a validated model, a successful compilation yields a square
routing matrix of dimension N whose entries all lie in [0, 1]. -/
theorem claim_C6 (m : ProcessModel) (hf : m.fieldValidB = true)
    (_hok : okB m.construct = true) (b : CiwParams)
    (hb : generate_params m = Except.ok b) :
    b.routing.length = m.activities.length ∧
    ∀ row ∈ b.routing, row.length = m.activities.length ∧
      ∀ x ∈ row, 0 ≤ x ∧ x ≤ 1 := by
  obtain ⟨ns, sds, ads, mat, h1, h2, h3⟩ := generate_params_ok_inv m b hb
  subst h3
  obtain ⟨⟨hlen, hrows⟩, -⟩ := buildRouting_ok_entry (node_map m.activities 0)
    m.activities.length (fun name u h => node_map_lt m.activities name u h)
    m.transitions (initMatrix m.activities.length) mat (isMatrix_initMatrix _) h2
  have hbounds := buildRouting_bounds (node_map m.activities 0) m.transitions
    (initMatrix m.activities.length) mat (fieldValid_transitions m hf) ?_ h2
  · exact ⟨hlen, fun row hrow => ⟨hrows row hrow, fun x hx => hbounds row hrow x hx⟩⟩
  · intro row hrow x hx
    rw [List.eq_of_mem_replicate hrow] at hx
    rw [List.eq_of_mem_replicate hx]
    norm_num

/-- C6 witness: the compiled accept example has a 2-by-2 routing matrix. -/
theorem claim_C6_witness :
    exC2.fieldValidB = true ∧ okB exC2.construct = true ∧
    generate_params exC2 = Except.ok bC2 ∧
    bC2.routing.length = exC2.activities.length :=
  ⟨by with_unfolding_all decide, by with_unfolding_all decide,
   by with_unfolding_all decide,
   (claim_C6 exC2 (by with_unfolding_all decide) (by with_unfolding_all decide) bC2
     (by with_unfolding_all decide)).1⟩

/-- C7 counterexample: compiling a model whose activity "Triage" has a
lognormal service distribution fails with an error that names the type
"lognormal" but does not name the offending activity, contrary to the
claim. -/
theorem claim_C7_counterexample :
    generate_params exC7 = Except.error "Unsupported distribution type for Ciw: lognormal"
  ∧ mentions "Unsupported distribution type for Ciw: lognormal" "lognormal" = true
  ∧ mentions "Unsupported distribution type for Ciw: lognormal" "Triage" = false := by
  with_unfolding_all decide

/-- C7 amended: an activity whose service (or arrival) distribution has a
type outside the supported set makes compilation fail with the
unsupported-distribution-type error naming that type — but not the
activity — provided the activities before it dispatch cleanly. -/
theorem claim_C7_amended (m : ProcessModel) (pre : List Activity) (a : Activity)
    (post : List Activity) (hacts : m.activities = pre ++ a :: post)
    (hpre : ∀ a' ∈ pre, okB (make_ciw_dist a'.service_distribution) = true ∧
      ∀ d, a'.arrival_distribution = some d → okB (make_ciw_dist d) = true) :
    (a.service_distribution.type ∉ supportedTypes →
      generate_params m = Except.error
        ("Unsupported distribution type for Ciw: " ++ a.service_distribution.type))
  ∧ (∀ d, a.arrival_distribution = some d →
      okB (make_ciw_dist a.service_distribution) = true → d.type ∉ supportedTypes →
      generate_params m = Except.error
        ("Unsupported distribution type for Ciw: " ++ d.type)) := by
  constructor
  · intro hbad
    have herr : buildNodeLists (a :: post) = Except.error
        ("Unsupported distribution type for Ciw: " ++ a.service_distribution.type) := by
      simp only [buildNodeLists, make_ciw_dist_unsupported a.service_distribution hbad]
    have hall : buildNodeLists m.activities = Except.error
        ("Unsupported distribution type for Ciw: " ++ a.service_distribution.type) := by
      rw [hacts]
      exact buildNodeLists_prefix_ok pre (a :: post) _ hpre herr
    unfold generate_params
    rw [hall]
  · intro d hd hsok hbad
    obtain ⟨sd, hsd⟩ := okB_exists _ hsok
    have herr2 : arrivalFor a = Except.error
        ("Unsupported distribution type for Ciw: " ++ d.type) := by
      unfold arrivalFor
      rw [hd]
      show (match make_ciw_dist d with
        | Except.error e => (Except.error e : Except String (Option CiwDist))
        | Except.ok cd => Except.ok (some cd)) = _
      rw [make_ciw_dist_unsupported d hbad]
    have herr : buildNodeLists (a :: post) = Except.error
        ("Unsupported distribution type for Ciw: " ++ d.type) := by
      simp only [buildNodeLists, hsd, herr2]
    have hall : buildNodeLists m.activities = Except.error
        ("Unsupported distribution type for Ciw: " ++ d.type) := by
      rw [hacts]
      exact buildNodeLists_prefix_ok pre (a :: post) _ hpre herr
    unfold generate_params
    rw [hall]

/-- C7 amended witness: the lognormal model fails with exactly the
unsupported-type message. -/
theorem claim_C7_amended_witness :
    exC7.activities = [] ++ actTriage :: [] ∧
    actTriage.service_distribution.type ∉ supportedTypes ∧
    generate_params exC7 = Except.error
      ("Unsupported distribution type for Ciw: " ++ actTriage.service_distribution.type) :=
  ⟨rfl, by with_unfolding_all decide,
   (claim_C7_amended exC7 [] actTriage [] rfl (by simp)).1
     (by with_unfolding_all decide)⟩

/-- C9: a model whose activity sequence contains two activities with the same
name still constructs (the validator never checks name uniqueness, only the
per-name combined outgoing sums), and node_map sends every name to the index
of its last occurrence in the sequence, so routing reads and writes for a
duplicated name use the last duplicate's row and column. -/
theorem claim_C9 (m : ProcessModel) (hf : m.fieldValidB = true) (hr : refsOk m)
    (hsums : ∀ a ∈ m.activities, |rowSum m.transitions a.name - 1| ≤ tol)
    (i j : Nat) (_hij : i < j) (_hj : j < m.activities.length)
    (_hdup : nameAt m.activities i = nameAt m.activities j) :
    m.construct = Except.ok m ∧
    ∀ name k, node_map m.activities 0 name = some k →
      nameAt m.activities k = some name ∧
      ∀ l', k < l' → nameAt m.activities l' ≠ some name := by
  constructor
  · have hok : okB m.construct = true := (construct_ok_iff m hf).mpr ⟨hr, hsums⟩
    have hv : okB (validate_transition_rows m) = true := by
      rw [← construct_eq_validate m hf]
      exact hok
    rw [construct_eq_validate m hf]
    exact validate_ok_eq m hv
  · intro name k hk
    exact node_map_last m.activities name k hk

/-- C9 witness: the model with "A" at indices 0 and 2 constructs, and
node_map sends "A" to index 2, the last occurrence. -/
theorem claim_C9_witness :
    exC9.fieldValidB = true ∧ refsOk exC9 ∧
    (∀ a ∈ exC9.activities, |rowSum exC9.transitions a.name - 1| ≤ tol) ∧
    (0 : Nat) < 2 ∧ 2 < exC9.activities.length ∧
    nameAt exC9.activities 0 = nameAt exC9.activities 2 ∧
    exC9.construct = Except.ok exC9 ∧
    node_map exC9.activities 0 "A" = some 2 ∧
    nameAt exC9.activities 2 = some "A" :=
  ⟨by with_unfolding_all decide, by with_unfolding_all decide,
   by with_unfolding_all decide, by with_unfolding_all decide,
   by with_unfolding_all decide, by with_unfolding_all decide,
   (claim_C9 exC9 (by with_unfolding_all decide) (by with_unfolding_all decide)
     (by with_unfolding_all decide) 0 2 (by with_unfolding_all decide)
     (by with_unfolding_all decide) (by with_unfolding_all decide)).1,
   by with_unfolding_all decide,
   ((claim_C9 exC9 (by with_unfolding_all decide) (by with_unfolding_all decide)
     (by with_unfolding_all decide) 0 2 (by with_unfolding_all decide)
     (by with_unfolding_all decide) (by with_unfolding_all decide)).2 "A" 2
     (by with_unfolding_all decide)).1⟩

/-- C10: in a validated model, the compiled routing entry for a (source,
target) name pair equals the probability of the LAST transition with that
pair (the compiler overwrites), even though the validator accumulated their
sum; the two-parallel-edges example A to B with 0.5 twice validates (sum 1)
yet compiles to an entry of 0.5. -/
theorem claim_C10 (m : ProcessModel) (_hf : m.fieldValidB = true)
    (_hok : okB m.construct = true) (s g : String) (u v : Nat)
    (hs : node_map m.activities 0 s = some u) (hg : node_map m.activities 0 g = some v)
    (hexit : g ≠ "Exit") (b : CiwParams) (hb : generate_params m = Except.ok b) :
    entry b.routing u v = (lastTrans s g m.transitions).getD 0
  ∧ (okB exC10.construct = true ∧ rowSum exC10.transitions "A" = 1
     ∧ generate_params exC10 = Except.ok bC10 ∧ entry bC10.routing 0 1 = 1 / 2) := by
  constructor
  · obtain ⟨ns, sds, ads, mat, h1, h2, h3⟩ := generate_params_ok_inv m b hb
    subst h3
    obtain ⟨-, hent⟩ := buildRouting_ok_entry (node_map m.activities 0)
      m.activities.length (fun name u' h => node_map_lt m.activities name u' h)
      m.transitions (initMatrix m.activities.length) mat (isMatrix_initMatrix _) h2
    rw [hent u v, entry_initMatrix,
      lastWrite_eq_lastTrans m.activities s g u v hs hg hexit m.transitions]
  · refine ⟨?_, ?_, ?_, ?_⟩ <;> with_unfolding_all decide

/-- C10 witness: in the two-parallel-edges model the compiled (A, B) entry
equals the last matching transition's probability. -/
theorem claim_C10_witness :
    exC10.fieldValidB = true ∧ okB exC10.construct = true ∧
    node_map exC10.activities 0 "A" = some 0 ∧
    node_map exC10.activities 0 "B" = some 1 ∧
    generate_params exC10 = Except.ok bC10 ∧
    entry bC10.routing 0 1 = (lastTrans "A" "B" exC10.transitions).getD 0 :=
  ⟨by with_unfolding_all decide, by with_unfolding_all decide,
   by with_unfolding_all decide, by with_unfolding_all decide,
   by with_unfolding_all decide,
   (claim_C10 exC10 (by with_unfolding_all decide) (by with_unfolding_all decide)
     "A" "B" 0 1 (by with_unfolding_all decide) (by with_unfolding_all decide)
     (by with_unfolding_all decide) bC10 (by with_unfolding_all decide)).1⟩

end Json2Ciw
